import Mathlib

/-!
Verification of the remote-cache abstraction of the repository
(`pkg/infra/remotecache`).  The repository sources supplied here contain
only the package's test file (`remotecache_test.go`); the implementation
files (`remotecache.go`, the database/redis/memcached drivers and the
gob codec) are absent, so the cache model below is modelled from the
specification, faithful to its words, and checked against the behaviour
the test file exercises.

Time is modelled as a natural number of abstract ticks; bytes are
modelled as lists of naturals.
-/

namespace RemoteCache

/-- A byte sequence, modelled as a list of naturals. -/
abbrev Bytes := List Nat

/-- Modelled from the spec: the error taxonomy of §7
(`CacheItemNotFound`, `InvalidCacheTypeError`, `UnregisteredTypeError`,
`EncodingError`, `DecodingError`, `BackendUnavailableError`). -/
inductive CacheError
  | cacheItemNotFound
  | invalidCacheType
  | unregisteredType
  | encodingError
  | decodingError
  | backendUnavailable
deriving DecidableEq, Repr

/-- Modelled from the spec: a Cache Entry `(value: bytes, expiresAt:
optional timestamp)`; `expiresAt` is absent (never expires) when TTL = 0
at write time (§3). -/
structure CacheEntry where
  value : Bytes
  expiresAt : Option Nat
deriving DecidableEq, Repr

/-- Modelled from the spec: the state a Backend Driver's medium holds,
a mapping from caller-chosen keys to live entries (§3). -/
def CacheState := String → Option CacheEntry

/-- The empty medium: no key holds an entry. -/
def emptyCache : CacheState := fun _ => none

/-- Modelled from the spec (missing `SetByteArray` implementation):
`SetByteArray(ctx, key, bytes, expire)` — `expire == 0` means "never
expires"; a positive duration stamps the entry with `expiresAt = now +
expire`; overwrites any existing entry at `key`, resetting its TTL
(§4.2). -/
def setByteArray (c : CacheState) (now : Nat) (key : String) (v : Bytes)
    (expire : Nat) : CacheState :=
  fun k =>
    if k = key then
      some ⟨v, if expire = 0 then none else some (now + expire)⟩
    else c k

/-- Modelled from the spec (missing `GetByteArray` implementation):
fails with `CacheItemNotFound` if the key does not exist or has expired
as of call time; a positive duration means the entry becomes unreadable
strictly after that duration elapses (§4.2). -/
def getByteArray (c : CacheState) (now : Nat) (key : String) :
    Except CacheError Bytes :=
  match c key with
  | none => .error .cacheItemNotFound
  | some e =>
    match e.expiresAt with
    | none => .ok e.value
    | some t => if t < now then .error .cacheItemNotFound else .ok e.value

/-- Modelled from the spec: the outcome the underlying medium reports
for a delete — some media surface a distinct outcome for deleting a
non-existent key (§4.2). -/
inductive MediumDeleteOutcome
  | removed
  | missingKey
deriving DecidableEq, Repr

/-- Modelled from the spec: the raw medium-level delete; it reports the
distinct `missingKey` outcome when no entry was present. -/
def mediumDelete (c : CacheState) (key : String) :
    CacheState × MediumDeleteOutcome :=
  (fun k => if k = key then none else c k,
   if (c key).isSome then .removed else .missingKey)

/-- Modelled from the spec (missing `Delete` implementation): removes
the entry if present; succeeds (no error) even if the key was absent —
a medium's distinct not-found outcome is treated as success by the
driver (§4.2). -/
def driverDelete (c : CacheState) (key : String) :
    CacheState × Option CacheError :=
  ((mediumDelete c key).1, none)

/-- Modelled from the spec: the identities of the concrete application
types the codec can reference; the registry is keyed by the concrete
type's identity (§3).  `cacheableStruct` is the `CacheableStruct{String,
Int64}` type the test file registers. -/
inductive RegType
  | cacheableStruct
  | stringType
  | intType
deriving DecidableEq, Repr

/-- Modelled from the spec: a typed application value that can be
handed to the typed `Set`/`Get` operations. -/
inductive TypedValue
  | structVal (s : String) (n : Int)
  | stringVal (s : String)
  | intVal (n : Int)
deriving DecidableEq, Repr

/-- The concrete type identity of a typed value. -/
def typeOf : TypedValue → RegType
  | .structVal _ _ => .cacheableStruct
  | .stringVal _ => .stringType
  | .intVal _ => .intType

/-- Modelled from the spec: the process-wide type registry, append-only,
keyed by type identity (§3). -/
abbrev Registry := List RegType

/-- Modelled from the spec (missing `Register` implementation): records
type `T` in the registry exactly once per type; calling it twice for the
same type is a no-op (§4.1). -/
def register (t : RegType) (r : Registry) : Registry :=
  if t ∈ r then r else t :: r

/-- Serialize a string field: length-prefixed character codes. -/
def encodeStringB (s : String) : Bytes :=
  s.data.length :: s.data.map Char.toNat

/-- Parse a length-prefixed string field, returning the remainder. -/
def decodeStringB : Bytes → Option (String × Bytes)
  | [] => none
  | n :: rest =>
    if n ≤ rest.length then
      some (String.mk ((rest.take n).map Char.ofNat), rest.drop n)
    else none

/-- Serialize an integer field: a sign marker followed by the
magnitude. -/
def encodeIntB (n : Int) : Bytes :=
  [if n < 0 then 1 else 0, n.natAbs]

/-- Parse an integer field, returning the remainder. -/
def decodeIntB : Bytes → Option (Int × Bytes)
  | sgn :: m :: rest =>
    some ((if sgn = 1 then -(m : Int) else (m : Int)), rest)
  | _ => none

/-- Modelled from the spec (missing gob codec implementation): the raw
serialized form of a typed value — a type tag followed by the fields. -/
def rawEncode : TypedValue → Bytes
  | .structVal s n => 0 :: (encodeStringB s ++ encodeIntB n)
  | .stringVal s => 1 :: encodeStringB s
  | .intVal n => 2 :: encodeIntB n

/-- Modelled from the spec (missing gob codec implementation): decode
bytes into a destination slot of the given type; `none` when the bytes
are malformed or do not match the destination's type. -/
def rawDecode (t : RegType) (b : Bytes) : Option TypedValue :=
  match t, b with
  | .cacheableStruct, 0 :: rest =>
    (decodeStringB rest).bind fun sr =>
      (decodeIntB sr.2).map fun nr => .structVal sr.1 nr.1
  | .stringType, 1 :: rest =>
    (decodeStringB rest).map fun sr => .stringVal sr.1
  | .intType, 2 :: rest =>
    (decodeIntB rest).map fun nr => .intVal nr.1
  | _, _ => none

/-- Modelled from the spec: `Encode(value) -> bytes`; a codec operation
referencing a type before any `Register` of it fails with
`UnregisteredTypeError` (§4.1). -/
def gobEncode (r : Registry) (v : TypedValue) : Except CacheError Bytes :=
  if typeOf v ∈ r then .ok (rawEncode v) else .error .unregisteredType

/-- Modelled from the spec: `Decode(bytes, destination)`; fails with
`DecodingError` if bytes are malformed or do not match the destination's
type, and with `UnregisteredTypeError` when the destination's type was
never registered (§4.1). -/
def gobDecode (r : Registry) (t : RegType) (b : Bytes) :
    Except CacheError TypedValue :=
  if t ∈ r then
    match rawDecode t b with
    | some v => .ok v
    | none => .error .decodingError
  else .error .unregisteredType

/-- Modelled from the spec (missing Cache Storage facade): typed
`Set(ctx, key, value, expire)` — `Encode(value)` via the codec, then
`SetByteArray`; fails with whatever the codec failed with (§4.3). -/
def storageSet (r : Registry) (c : CacheState) (now : Nat) (key : String)
    (v : TypedValue) (expire : Nat) : Except CacheError CacheState :=
  (gobEncode r v).map fun b => setByteArray c now key b expire

/-- Modelled from the spec (missing Cache Storage facade): typed
`Get(ctx, key, destination)` — `GetByteArray` then `Decode` into the
destination slot of type `t` (§4.3). -/
def storageGet (r : Registry) (c : CacheState) (now : Nat) (key : String)
    (t : RegType) : Except CacheError TypedValue :=
  match getByteArray c now key with
  | .error e => .error e
  | .ok b => gobDecode r t b

/-- Modelled from the spec (missing `prefixCacheStorage`): every
operation rewrites the caller's key to `prefix + key`, a purely textual
concatenation, before delegating (§4.4).  Write through the decorator
with namespace string `pfx`. -/
def prefixSetByteArray (pfx : String) (c : CacheState) (now : Nat)
    (key : String) (v : Bytes) (expire : Nat) : CacheState :=
  setByteArray c now (pfx ++ key) v expire

/-- Modelled from the spec (missing `prefixCacheStorage`): read through
the decorator with namespace string `pfx`. -/
def prefixGetByteArray (pfx : String) (c : CacheState) (now : Nat)
    (key : String) : Except CacheError Bytes :=
  getByteArray c now (pfx ++ key)

/-- Modelled from the spec: the known Backend Drivers of the Backend
Selector contract — table-backed, distributed-cache-protocol, and
memory-store-protocol (§6). -/
inductive BackendKind
  | table
  | distributedCache
  | memoryStore
deriving DecidableEq, Repr

/-- The configuration names the Backend Selector recognizes. -/
def knownBackendNames : List String :=
  ["table", "distributed-cache", "memory-store"]

/-- Modelled from the spec (missing `createClient`): given a
configuration value naming one of the known backends, constructs the
matching Backend Driver, or fails with `InvalidCacheTypeError` for an
unrecognized name, creating no driver (§4.3, §6). -/
def createClient (name : String) : Except CacheError BackendKind :=
  if name = "table" then .ok .table
  else if name = "distributed-cache" then .ok .distributedCache
  else if name = "memory-store" then .ok .memoryStore
  else .error .invalidCacheType

/-! ## Codec round-trip lemmas -/

theorem decodeStringB_encodeStringB (s : String) (rest : Bytes) :
    decodeStringB (encodeStringB s ++ rest) = some (s, rest) := by
  have hlen : (s.data.map Char.toNat).length = s.data.length :=
    List.length_map _ _
  simp only [encodeStringB, decodeStringB, List.cons_append]
  rw [if_pos]
  · have htake : (s.data.map Char.toNat ++ rest).take s.data.length
        = s.data.map Char.toNat := by
      rw [← hlen]; exact List.take_left _ _
    have hdrop : (s.data.map Char.toNat ++ rest).drop s.data.length
        = rest := by
      rw [← hlen]; exact List.drop_left _ _
    rw [htake, hdrop, List.map_map]
    have hmap : s.data.map (Char.ofNat ∘ Char.toNat) = s.data := by
      simp [Function.comp_def, Char.ofNat_toNat]
    rw [hmap]
  · rw [List.length_append, hlen]
    omega

theorem decodeIntB_encodeIntB (n : Int) (rest : Bytes) :
    decodeIntB (encodeIntB n ++ rest) = some (n, rest) := by
  by_cases h : n < 0
  · simp only [encodeIntB, if_pos h, decodeIntB, List.cons_append,
      List.nil_append, if_pos rfl]
    have hn : -(n.natAbs : Int) = n := by omega
    simp [hn, abs_of_neg h]
  · simp only [encodeIntB, if_neg h, decodeIntB, List.cons_append,
      List.nil_append]
    rw [if_neg (by omega)]
    have hn : (n.natAbs : Int) = n := by omega
    rw [hn]

theorem rawDecode_rawEncode (v : TypedValue) :
    rawDecode (typeOf v) (rawEncode v) = some v := by
  cases v with
  | structVal s n =>
    have h1 := decodeStringB_encodeStringB s (encodeIntB n)
    have h2 := decodeIntB_encodeIntB n []
    rw [List.append_nil] at h2
    simp [rawEncode, rawDecode, typeOf, h1, h2]
  | stringVal s =>
    have h1 := decodeStringB_encodeStringB s []
    rw [List.append_nil] at h1
    simp [rawEncode, rawDecode, typeOf, h1]
  | intVal n =>
    have h2 := decodeIntB_encodeIntB n []
    rw [List.append_nil] at h2
    simp [rawEncode, rawDecode, typeOf, h2]

/-- Reading back the key just written, while it is still live. -/
theorem getByteArray_setByteArray_self (c : CacheState) (t0 t1 : Nat)
    (k : String) (b : Bytes) (expire : Nat)
    (hlive : expire = 0 ∨ t1 ≤ t0 + expire) :
    getByteArray (setByteArray c t0 k b expire) t1 k = .ok b := by
  by_cases h0 : expire = 0
  · subst h0
    simp [getByteArray, setByteArray]
  · rcases hlive with h | h
    · exact absurd h h0
    · have hk : setByteArray c t0 k b expire k
          = some ⟨b, some (t0 + expire)⟩ := by
        simp [setByteArray, h0]
      simp only [getByteArray, hk]
      rw [if_neg (by omega)]

/-- Writing one key leaves every other key's entry unchanged. -/
theorem setByteArray_other (c : CacheState) (t0 : Nat) (k k2 : String)
    (b : Bytes) (expire : Nat) (h : k2 ≠ k) :
    setByteArray c t0 k b expire k2 = c k2 := by
  simp [setByteArray, h]

/-! ## Claim theorems -/

/-- C1: for every registered type and value of that type, a typed
`Set(k, v, ttl=0)` followed by a typed `Get(k, &out)` on the same Cache
Storage succeeds and yields `out == v` (round-trip through the codec and
the backend driver). -/
theorem c1_typed_round_trip (r : Registry) (c : CacheState)
    (now now2 : Nat) (k : String) (v : TypedValue)
    (hreg : typeOf v ∈ r) :
    ∃ c2, storageSet r c now k v 0 = .ok c2 ∧
      storageGet r c2 now2 k (typeOf v) = .ok v := by
  refine ⟨setByteArray c now k (rawEncode v) 0, ?_, ?_⟩
  · simp [storageSet, gobEncode, hreg, Except.map]
  · have hget := getByteArray_setByteArray_self c now now2 k (rawEncode v) 0
      (Or.inl rfl)
    simp [storageGet, hget, gobDecode, hreg, rawDecode_rawEncode]

/-- Witness for C1 at the registered `CacheableStruct`-like value. -/
theorem c1_typed_round_trip_witness :
    typeOf (TypedValue.structVal "ab" (-5)) ∈ [RegType.cacheableStruct] ∧
    (∃ c2, storageSet [RegType.cacheableStruct] emptyCache 0 "key1"
        (.structVal "ab" (-5)) 0 = .ok c2 ∧
      storageGet [RegType.cacheableStruct] c2 7 "key1"
        (typeOf (.structVal "ab" (-5))) = .ok (.structVal "ab" (-5))) :=
  ⟨by decide,
   c1_typed_round_trip [RegType.cacheableStruct] emptyCache 0 7 "key1"
     (.structVal "ab" (-5)) (by decide)⟩

/-- C2: after `SetByteArray(k, b, d)` with `d > 0`, a read issued before
the deadline succeeds with `b`, and a read issued strictly after the
deadline fails with `CacheItemNotFound`. -/
theorem c2_set_then_expiry (c : CacheState) (t0 : Nat) (k : String)
    (b : Bytes) (d t1 t2 : Nat) (hd : 0 < d) (hbefore : t1 < t0 + d)
    (hafter : t0 + d < t2) :
    getByteArray (setByteArray c t0 k b d) t1 k = .ok b ∧
    getByteArray (setByteArray c t0 k b d) t2 k
      = .error .cacheItemNotFound := by
  constructor
  · exact getByteArray_setByteArray_self c t0 t1 k b d (Or.inr (by omega))
  · have hd0 : d ≠ 0 := by omega
    have hk : setByteArray c t0 k b d k = some ⟨b, some (t0 + d)⟩ := by
      simp [setByteArray, hd0]
    simp only [getByteArray, hk]
    rw [if_pos (by omega)]

/-- Witness for C2 with a one-second TTL measured in milliseconds. -/
theorem c2_set_then_expiry_witness :
    0 < 1000 ∧ (0 : Nat) < 0 + 1000 ∧ 0 + 1000 < 1001 ∧
    (getByteArray (setByteArray emptyCache 0 "key1" [7] 1000) 0 "key1"
        = .ok [7] ∧
     getByteArray (setByteArray emptyCache 0 "key1" [7] 1000) 1001 "key1"
        = .error .cacheItemNotFound) :=
  ⟨by decide, by decide, by decide,
   c2_set_then_expiry emptyCache 0 "key1" [7] 1000 0 1001 (by decide)
     (by decide) (by decide)⟩

/-- C3 counterexample: with the empty namespace string, after a write
through the Prefix Decorator, a direct read of the caller's key on the
underlying storage does NOT fail with `CacheItemNotFound` (it returns
the value), so the claim is false for the prefix `""`. -/
theorem c3_counterexample :
    getByteArray
      (prefixSetByteArray "" emptyCache 0 "foo" [98, 97, 114] 3600)
      0 "foo" ≠ .error .cacheItemNotFound := by
  have h : getByteArray
      (prefixSetByteArray "" emptyCache 0 "foo" [98, 97, 114] 3600)
      0 "foo" = .ok [98, 97, 114] := rfl
  rw [h]
  simp

/-- C3 (amended): for every NON-EMPTY prefix `pfx`, key `k` with no
pre-existing entry on the underlying storage, and value `v`, after a
write through the Prefix Decorator the underlying storage returns `v`
at the textually concatenated key `pfx ++ k` (case-sensitively, no
separator normalization) while a direct read of `k` fails with
`CacheItemNotFound`. -/
theorem c3_prefix_isolation (pfx k : String) (c : CacheState)
    (v : Bytes) (ttl t0 t1 : Nat) (hp : pfx ≠ "") (hc : c k = none)
    (hlive : ttl = 0 ∨ t1 ≤ t0 + ttl) :
    getByteArray (prefixSetByteArray pfx c t0 k v ttl) t1 (pfx ++ k)
      = .ok v ∧
    getByteArray (prefixSetByteArray pfx c t0 k v ttl) t1 k
      = .error .cacheItemNotFound := by
  constructor
  · exact getByteArray_setByteArray_self c t0 t1 (pfx ++ k) v ttl hlive
  · have hp0 : pfx.length ≠ 0 := by
      intro h0
      apply hp
      cases pfx with
      | mk data =>
        cases data with
        | nil => rfl
        | cons a as => simp [String.length] at h0
    have hne : k ≠ pfx ++ k := by
      intro he
      have hl := congrArg String.length he
      rw [String.length_append] at hl
      omega
    have hsk : prefixSetByteArray pfx c t0 k v ttl k = none := by
      rw [prefixSetByteArray,
        setByteArray_other c t0 (pfx ++ k) k v ttl hne, hc]
    simp [getByteArray, hsk]

/-- Witness for C3 (amended) at the test's prefix `"test/"`. -/
theorem c3_prefix_isolation_witness :
    "test/" ≠ "" ∧ emptyCache "foo" = none ∧
    ((3600 : Nat) = 0 ∨ (0 : Nat) ≤ 0 + 3600) ∧
    (getByteArray
        (prefixSetByteArray "test/" emptyCache 0 "foo" [98, 97, 114] 3600)
        0 ("test/" ++ "foo") = .ok [98, 97, 114] ∧
     getByteArray
        (prefixSetByteArray "test/" emptyCache 0 "foo" [98, 97, 114] 3600)
        0 "foo" = .error .cacheItemNotFound) :=
  ⟨by decide, rfl, by decide,
   c3_prefix_isolation "test/" "foo" emptyCache [98, 97, 114] 3600 0 0
     (by decide) rfl (by decide)⟩

/-- C4: construction with a backend name matching no known Backend
Driver fails with `InvalidCacheTypeError` and creates no driver, while
the recognized name `"table"` succeeds. -/
theorem c4_unknown_backend (name : String)
    (h : name ∉ knownBackendNames) :
    createClient name = .error .invalidCacheType ∧
    createClient "table" = .ok .table := by
  constructor
  · simp only [knownBackendNames, List.mem_cons, List.not_mem_nil,
      or_false] at h
    push_neg at h
    simp [createClient, h.1, h.2.1, h.2.2]
  · rfl

/-- Witness for C4 at the test's backend name `"invalid"`. -/
theorem c4_unknown_backend_witness :
    "invalid" ∉ knownBackendNames ∧
    (createClient "invalid" = .error .invalidCacheType ∧
     createClient "table" = .ok .table) :=
  ⟨by decide, c4_unknown_backend "invalid" (by decide)⟩

/-- C5: `SetByteArray(k, b, 0)`; `Delete(k)`; `GetByteArray(k)` — the
delete reports no error and the subsequent read fails with exactly
`CacheItemNotFound`. -/
theorem c5_miss_after_delete (c : CacheState) (t0 t1 : Nat) (k : String)
    (b : Bytes) :
    (driverDelete (setByteArray c t0 k b 0) k).2 = none ∧
    getByteArray (driverDelete (setByteArray c t0 k b 0) k).1 t1 k
      = .error .cacheItemNotFound := by
  refine ⟨rfl, ?_⟩
  simp [driverDelete, mediumDelete, getByteArray]

/-- C6: an entry written with TTL = 0 has no `expiresAt` and remains
readable at every later time until deleted or overwritten. -/
theorem c6_zero_ttl_never_expires (c : CacheState) (t0 : Nat)
    (k : String) (b : Bytes) :
    setByteArray c t0 k b 0 k = some ⟨b, none⟩ ∧
    ∀ t, getByteArray (setByteArray c t0 k b 0) t k = .ok b := by
  constructor
  · simp [setByteArray]
  · intro t
    exact getByteArray_setByteArray_self c t0 t k b 0 (Or.inl rfl)

/-- C7 counterexample: with ticks of 0.1 s, `Set(k, v1, ttl=100)` at
tick 0, `Set(k, v2, ttl=100)` at tick 10, then a read at tick 115 —
10.5 s elapsed from the second call — does NOT succeed with `v2`: the
entry expired at tick 110, strictly before the read. -/
theorem c7_counterexample :
    getByteArray
      (setByteArray (setByteArray emptyCache 0 "k" [1] 100) 10 "k" [2] 100)
      115 "k" ≠ .ok [2] := by
  have h : getByteArray
      (setByteArray (setByteArray emptyCache 0 "k" [1] 100) 10 "k" [2] 100)
      115 "k" = .error .cacheItemNotFound := rfl
  rw [h]
  simp

/-- C7 (amended): an overwrite resets the TTL countdown from the moment
of the overwriting call: after `Set(k, v1, d1)` at `t0` and
`Set(k, v2, d)` at `t1`, every read at a time at most `t1 + d` —
in particular 10.5 s total elapsed from the FIRST call, i.e. 9.5 s
after the second — succeeds and returns `v2`. -/
theorem c7_overwrite_resets_ttl (c : CacheState) (k : String)
    (v1 v2 : Bytes) (t0 t1 d1 d t : Nat) (ht : t ≤ t1 + d) :
    getByteArray (setByteArray (setByteArray c t0 k v1 d1) t1 k v2 d) t k
      = .ok v2 :=
  getByteArray_setByteArray_self _ t1 t k v2 d (Or.inr ht)

/-- Witness for C7 (amended): ticks of 0.1 s, second write at tick 10
with TTL 100, read at tick 105 (10.5 s from the first call). -/
theorem c7_overwrite_resets_ttl_witness :
    (105 : Nat) ≤ 10 + 100 ∧
    getByteArray
      (setByteArray (setByteArray emptyCache 0 "k" [1] 100) 10 "k" [2] 100)
      105 "k" = .ok [2] :=
  ⟨by decide,
   c7_overwrite_resets_ttl emptyCache "k" [1] [2] 0 10 100 100 105
     (by decide)⟩

/-- C8: `Register` is idempotent — registering the same type twice
equals registering it once — the registry records a freshly registered
type exactly once, and a codec operation referencing an unregistered
type fails with `UnregisteredTypeError`. -/
theorem c8_register_idempotent (r : Registry) (t : RegType)
    (v : TypedValue) (ht : t ∉ r) (hv : typeOf v ∉ r) :
    register t (register t r) = register t r ∧
    List.count t (register t r) = 1 ∧
    gobEncode r v = .error .unregisteredType := by
  have h1 : register t r = t :: r := if_neg ht
  refine ⟨?_, ?_, ?_⟩
  · rw [h1, register, if_pos (List.mem_cons_self t r)]
  · rw [h1, List.count_cons_self, List.count_eq_zero.mpr ht]
  · simp [gobEncode, hv]

/-- Witness for C8 on the empty registry and the struct type. -/
theorem c8_register_idempotent_witness :
    RegType.cacheableStruct ∉ ([] : Registry) ∧
    typeOf (TypedValue.structVal "" 0) ∉ ([] : Registry) ∧
    (register .cacheableStruct (register .cacheableStruct []) =
        register .cacheableStruct [] ∧
     List.count RegType.cacheableStruct (register .cacheableStruct []) = 1 ∧
     gobEncode [] (.structVal "" 0) = .error .unregisteredType) :=
  ⟨by decide, by decide,
   c8_register_idempotent [] .cacheableStruct (.structVal "" 0)
     (by decide) (by decide)⟩

/-- C9: `Delete` on an absent key returns no error: the medium reports
its distinct missing-key outcome, the driver translates it to success,
and the driver-level error result is the same for every cache state at
that key. -/
theorem c9_delete_absent_succeeds (c : CacheState) (k : String)
    (habsent : c k = none) :
    (mediumDelete c k).2 = .missingKey ∧
    (driverDelete c k).2 = none ∧
    ∀ c2 : CacheState, (driverDelete c2 k).2 = (driverDelete c k).2 := by
  refine ⟨?_, rfl, fun c2 => rfl⟩
  simp [mediumDelete, habsent]

/-- Witness for C9 on the empty cache. -/
theorem c9_delete_absent_succeeds_witness :
    emptyCache "key1" = none ∧
    ((mediumDelete emptyCache "key1").2 = .missingKey ∧
     (driverDelete emptyCache "key1").2 = none ∧
     ∀ c2 : CacheState,
       (driverDelete c2 "key1").2 = (driverDelete emptyCache "key1").2) :=
  ⟨rfl, c9_delete_absent_succeeds emptyCache "key1" rfl⟩

/-- C10: the raw interface round-trips byte sequences exactly — after
`SetByteArray(k, b, 0)`, `GetByteArray(k)` returns the stored bytes,
byte for byte, with no codec transformation. -/
theorem c10_raw_byte_round_trip (c : CacheState) (t0 t1 : Nat)
    (k : String) (b : Bytes) :
    getByteArray (setByteArray c t0 k b 0) t1 k = .ok b :=
  getByteArray_setByteArray_self c t0 t1 k b 0 (Or.inl rfl)

end RemoteCache
